import Mathlib

/-!
Verification development for the `rask` task orchestrator
(`src/main.rs`, `src/commands/run.rs`, `src/utils/config.rs`).

Shallow embedding conventions:
* Filesystem paths are modeled as lists of components (`Path := List String`),
  mirroring `std::path::PathBuf` component semantics.
* `HashMap` values are modeled as association lists; the list order stands for
  the map's (unspecified) iteration order, and lookup is by key equality.
* Filesystem reads, YAML/JSON parsing and glob expansion are external
  collaborators of the code under verification; they enter the model as
  explicit function parameters (oracles) that each theorem quantifies over.
* Rust `panic!`/`expect` aborts are a distinguished outcome (`ROut.panicked`),
  separate from ordinary `Result::Err` propagation (`ROut.err`).
* Loops and recursions that the Rust code runs without a structural bound are
  given explicit fuel; exhausting fuel yields the error outcome, and every
  theorem about them is conditioned on (or exhibits) successful termination.
-/

namespace Rask

/-- A filesystem path as its list of components, as produced by
`std::path::Path::components` (no empty components). -/
abbrev Path := List String

/-- Outcome of a Rust computation that may return `Ok`, return `Err`,
or abort the process through `panic!`/`expect`. -/
inductive ROut (α : Type) where
  | ok (a : α)
  | err (msg : String)
  | panicked (msg : String)
deriving DecidableEq, Repr

/-- Splits a list of characters on `/`, accumulating components. Models how
`PathBuf::push` on a multi-component string adds each component in turn. -/
def splitComps (cs : List Char) : List (List Char) :=
  cs.foldr
    (fun c acc =>
      if c = '/' then [] :: acc
      else
        match acc with
        | [] => [[c]]
        | a :: as => (c :: a) :: as)
    [[]]

/-- Component list of a pattern string: split on `/` and drop empty
components, mirroring `Path::components` normalization. -/
def pathComps (s : String) : List String :=
  (splitComps s.toList).map (fun cs => String.mk cs) |>.filter (fun c => !(c == ""))

/-- Whether a Rust path string is absolute (starts with `/`). -/
def isAbsolutePath (s : String) : Bool :=
  match s.toList with
  | c :: _ => c = '/'
  | [] => false

/-- Model of `PathBuf::push`: appends the components of `s` to `root`; an absolute
`s` replaces `root` entirely. -/
def path_push (root : Path) (s : String) : Path :=
  if isAbsolutePath s then pathComps s else root ++ pathComps s

/-- Model of `get_config_glob_pattern` (src/utils/config.rs:289-298, duplicated at
src/commands/run.rs:419-428): joins the declared pattern to the directory and
appends `rask.yaml` unless `pattern.ends_with(".yaml")` holds. Note that
`Path::ends_with` compares whole path components, so the test is whether the
last component is literally `.yaml`. -/
def get_config_glob_pattern (root_path : Path) (glob_pattern : String) : Path :=
  let pattern := path_push root_path glob_pattern
  if pattern.getLast? = some ".yaml" then pattern
  else pattern ++ ["rask.yaml"]

/-- Model of `TaskEngine` (src/utils/config.rs:125-138): the serde default variant is
`NONE`. -/
inductive TaskEngine where
  | COMPOSER
  | NPM
  | YARN
  | PNPM
  | NONE
deriving DecidableEq, Repr

/-- The `#[default]` variant of `TaskEngine`, used when the `task_engine`
field is omitted from a configuration file. -/
def taskEngineDefault : TaskEngine := TaskEngine.NONE

/-- Model of `TaskType` (src/utils/config.rs:110-113). -/
inductive TaskType where
  | SHELL
deriving DecidableEq, Repr

/-- Model of `ConfigTask` (src/utils/config.rs:115-120). -/
structure ConfigTask where
  task_type : TaskType
  content : String
deriving DecidableEq, Repr

/-- Model of `ConfigFile` (src/utils/config.rs:309-323): the yaml-borne fields plus
the two path fields filled in by `read_config_file`. The `tasks` mapping is
an association list standing for the source's `HashMap`. -/
structure ConfigFile where
  name : String
  task_engine : TaskEngine
  directories : List String
  tasks : List (String × String)
  file_path : Path
  dir_path : Path
deriving DecidableEq, Repr

/-- Model of `Config` (src/utils/config.rs:140-149). -/
structure Config where
  name : String
  task_engine : TaskEngine
  tasks : List (String × ConfigTask)
  file_path : Path
  dir_path : Path
  directories : List String
deriving DecidableEq, Repr

/-- Model of `read_config_file` (src/utils/config.rs:325-334): reads the file
(`read_file_content`, an `Err` on an unreadable file), then parses it with
`serde_yaml::from_str(..).expect(..)` — a parse failure panics — and finally
fills in `__file_path` and `__dir_path` (`path.parent().unwrap()`, modeled by
`dropLast` on the component list). The filesystem is the oracle `fs` (file
contents by path) and the YAML parser is the oracle `parseYaml`. -/
def read_config_file (fs : Path → Option String)
    (parseYaml : String → Option ConfigFile) (path : Path) : ROut ConfigFile :=
  match fs path with
  | none => .err "Failed to read file"
  | some content =>
    match parseYaml content with
    | none => .panicked "Failed to parse YAML"
    | some config_file =>
      .ok { config_file with file_path := path, dir_path := path.dropLast }

/-- One pass of the inner match loop of `discover_config_paths`
(src/utils/config.rs:274-282): for each glob match, insert it into the found
list and push it onto the work stack unless it is already present
(`found_config_paths.contains`). The found list grows at its back; the Rust
stack pushes/pops at its back, modeled here by `cons`/head so that the pop
order is identical. -/
def addMatches : List Path × List Path → List Path → List Path × List Path
  | fs, [] => fs
  | fs, m :: ms =>
    addMatches (if m ∈ fs.1 then fs else (fs.1 ++ [m], m :: fs.2)) ms

/-- The per-configuration pattern loop of `discover_config_paths`
(src/utils/config.rs:269-283): build each glob from the configuration's
containing directory, expand it (the oracle `globExpand`, whose `Except`
failure models a `glob::glob` pattern error; entries the glob iterator
reports as unreadable are simply absent from its list, mirroring the
`if let Ok(..)` skip), and collect the new matches. -/
def processDirs (globExpand : Path → Except String (List Path))
    (config_directory : Path) :
    List String → List Path × List Path → Except String (List Path × List Path)
  | [], fs => .ok fs
  | directory :: rest, fs =>
    match globExpand (get_config_glob_pattern config_directory directory) with
    | .error e => .error e
    | .ok ms => processDirs globExpand config_directory rest (addMatches fs ms)

/-- The worklist loop of `discover_config_paths` (src/utils/config.rs:263-284),
with explicit fuel for the unbounded `while`. `found` and `stack` are the
source's two vectors; `reads` instruments the loop with the list of paths on
which `read_config_file` has been invoked, in order, so that the visit-once
property can be stated. The parent of the popped path is its `dropLast`
(`_file_path.parent()`, which exists for every discovered file path). -/
def discoverLoop (fs : Path → Option String)
    (parseYaml : String → Option ConfigFile)
    (globExpand : Path → Except String (List Path)) :
    Nat → List Path → List Path → List Path → ROut (List Path × List Path)
  | 0, _, _, _ => .err "out of fuel"
  | fuel + 1, found, stack, reads =>
    match stack with
    | [] => .ok (found, reads)
    | p :: rest =>
      match read_config_file fs parseYaml p with
      | .err e => .err e
      | .panicked m => .panicked m
      | .ok config_file =>
        match processDirs globExpand p.dropLast config_file.directories
            (found, rest) with
        | .error e => .err e
        | .ok fs2 =>
          discoverLoop fs parseYaml globExpand fuel fs2.1 fs2.2 (reads ++ [p])

/-- Model of `discover_config_paths` (src/utils/config.rs:259-287, duplicated at
src/commands/run.rs:389-417): both the found list and the work stack are
seeded with the entry path. Returns the discovered paths and the ordered
list of configuration reads. -/
def discover_config_paths (fs : Path → Option String)
    (parseYaml : String → Option ConfigFile)
    (globExpand : Path → Except String (List Path))
    (fuel : Nat) (path : Path) : ROut (List Path × List Path) :=
  discoverLoop fs parseYaml globExpand fuel [path] [path] []

/-- Model of `parse_config_tasks` (src/utils/config.rs:233-246): every explicit task
entry becomes a shell `ConfigTask` with the verbatim command. -/
def parse_config_tasks (tasks : List (String × String)) :
    List (String × ConfigTask) :=
  tasks.map (fun kv => (kv.1, ⟨TaskType.SHELL, kv.2⟩))

/-- Character escaping of Rust's `Debug` formatting for strings, as used by
the `{:?}` placeholders in `parse_node_tasks`/`parse_composer_tasks`; the
characters occurring in script names here need only quote, backslash and
whitespace escapes. -/
def rustDebugEscape (c : Char) : String :=
  if c = '"' then "\\\""
  else if c = '\\' then "\\\\"
  else if c = '\n' then "\\n"
  else if c = '\t' then "\\t"
  else if c = '\r' then "\\r"
  else String.mk [c]

/-- Rust `format!` with a `{:?}` placeholder applied to a string: the string
is wrapped in double quotes with its contents escaped. -/
def rustDebug (s : String) : String :=
  "\"" ++ String.join (s.toList.map rustDebugEscape) ++ "\""

/-- Model of `PackageJsonFile` (src/utils/config.rs:178-182): the node manifest's
`scripts` mapping, as an association list in the map's iteration order. -/
structure PackageJsonFile where
  scripts : List (String × String)
deriving DecidableEq, Repr

/-- Model of `ComposerJsonScriptValue` (src/utils/config.rs:202-207). -/
inductive ComposerJsonScriptValue where
  | Single (s : String)
  | Multiple (ss : List String)
deriving DecidableEq, Repr

/-- Model of `ComposerJsonFile` (src/utils/config.rs:209-213). -/
structure ComposerJsonFile where
  scripts : List (String × ComposerJsonScriptValue)
deriving DecidableEq, Repr

/-- Model of `parse_node_tasks` (src/utils/config.rs:184-200): read `package.json`
from the directory (`Err` if unreadable), parse it with
`serde_json::from_str(..).expect(..)` (a parse failure panics), and for every
script key synthesize a shell task whose content is
`format!("{:?} run {:?}", prefix, key)` — both the package-manager name and
the key are rendered with `Debug` formatting, i.e. quoted. `pmCmd` is the
source's `prefix` argument. -/
def parse_node_tasks (fs : Path → Option String)
    (parseJson : String → Option PackageJsonFile)
    (dir_path : Path) (pmCmd : String) : ROut (List (String × ConfigTask)) :=
  match fs (dir_path ++ ["package.json"]) with
  | none => .err "Failed to read file"
  | some content =>
    match parseJson content with
    | none => .panicked "Failed to parse package.json"
    | some package_json =>
      .ok (package_json.scripts.map
        (fun kv => (kv.1, ⟨TaskType.SHELL, rustDebug pmCmd ++ " run " ++ rustDebug kv.1⟩)))

/-- Model of `parse_composer_tasks` (src/utils/config.rs:215-231): read
`composer.json` (`Err` if unreadable, panic on a parse failure) and for every
script key synthesize a shell task with content
`format!("composer run {:?}", key)` — the key is quoted. -/
def parse_composer_tasks (fs : Path → Option String)
    (parseJson : String → Option ComposerJsonFile)
    (dir_path : Path) : ROut (List (String × ConfigTask)) :=
  match fs (dir_path ++ ["composer.json"]) with
  | none => .err "Failed to read file"
  | some content =>
    match parseJson content with
    | none => .panicked "Failed to parse composer.json"
    | some package_json =>
      .ok (package_json.scripts.map
        (fun kv => (kv.1, ⟨TaskType.SHELL, "composer run " ++ rustDebug kv.1⟩)))

/-- Model of `parse_config_file` (src/utils/config.rs:162-176): a single task source
is chosen by the engine variant; the `NONE` (default) engine takes exactly
the explicit tasks of the configuration file. -/
def parse_config_file (fs : Path → Option String)
    (parseJsonNode : String → Option PackageJsonFile)
    (parseJsonComposer : String → Option ComposerJsonFile)
    (config_file : ConfigFile) : ROut Config :=
  let mk : List (String × ConfigTask) → Config := fun tasks =>
    { name := config_file.name
      task_engine := config_file.task_engine
      tasks := tasks
      file_path := config_file.file_path
      dir_path := config_file.dir_path
      directories := config_file.directories }
  match config_file.task_engine with
  | .COMPOSER =>
    match parse_composer_tasks fs parseJsonComposer config_file.dir_path with
    | .ok tasks => .ok (mk tasks)
    | .err e => .err e
    | .panicked m => .panicked m
  | .NPM =>
    match parse_node_tasks fs parseJsonNode config_file.dir_path "npm" with
    | .ok tasks => .ok (mk tasks)
    | .err e => .err e
    | .panicked m => .panicked m
  | .YARN =>
    match parse_node_tasks fs parseJsonNode config_file.dir_path "yarn" with
    | .ok tasks => .ok (mk tasks)
    | .err e => .err e
    | .panicked m => .panicked m
  | .PNPM =>
    match parse_node_tasks fs parseJsonNode config_file.dir_path "pnpm" with
    | .ok tasks => .ok (mk tasks)
    | .err e => .err e
    | .panicked m => .panicked m
  | .NONE => .ok (mk (parse_config_tasks config_file.tasks))

/-- Model of `ConfigStructure` (src/utils/config.rs:55-59): the hierarchical tree of
resolved configurations. -/
inductive ConfigStructure where
  | mk (config : Config) (children : List ConfigStructure)

/-- The configuration stored at a tree node. -/
def ConfigStructure.config : ConfigStructure → Config
  | .mk c _ => c

/-- The ordered children of a tree node. -/
def ConfigStructure.children : ConfigStructure → List ConfigStructure
  | .mk _ cs => cs

/-- The child-path computation inside `construct_config_structure`
(src/utils/config.rs:79-97): for each declared directory pattern in order,
the glob built by `get_config_glob_pattern` is matched against every key of
the path map in the map's iteration order (`config_path_map.keys()`), and
each match is appended. `isMatch pattern path` is the oracle standing for
`globset::GlobSet::is_match`; the claims at issue use only valid patterns, so
the `Glob::new` failure branch does not arise. -/
def child_paths (isMatch : Path → Path → Bool) (config_directory : Path)
    (config : Config) (keys : List Path) : List Path :=
  config.directories.flatMap
    (fun directory =>
      keys.filter (fun p => isMatch (get_config_glob_pattern config_directory directory) p))

/-- The `.map(|path| construct_config_structure(..).unwrap()).collect()` of
`construct_config_structure` (src/utils/config.rs:101-104): each child's
result is `.unwrap()`ed, so a child error panics (at the first failing child,
before any later child is used). -/
def collectChildren : List (ROut ConfigStructure) → ROut (List ConfigStructure)
  | [] => .ok []
  | r :: rest =>
    match r with
    | .ok c =>
      match collectChildren rest with
      | .ok cs => .ok (c :: cs)
      | .err e => .err e
      | .panicked m => .panicked m
    | .err e => .panicked e
    | .panicked m => .panicked m

/-- Model of `construct_config_structure` (src/utils/config.rs:73-108): look the path
up in the map (`Err "Unknown config path"` when absent), compute the matched
child paths, and recurse into each of them. The source recursion has no
structural bound, so it carries fuel here (each level of the tree consumes
one unit). -/
def construct_config_structure (isMatch : Path → Path → Bool) :
    Nat → Path → List (Path × Config) → ROut ConfigStructure
  | 0, _, _ => .err "out of fuel"
  | fuel + 1, config_path, config_path_map =>
    match List.lookup config_path config_path_map with
    | none => .err "Unknown config path"
    | some config =>
      let keys := config_path_map.map Prod.fst
      match collectChildren
          ((child_paths isMatch config_path.dropLast config keys).map
            (fun p => construct_config_structure isMatch fuel p config_path_map)) with
      | .ok children => .ok (.mk config children)
      | .err e => .err e
      | .panicked m => .panicked m

/-- Model of `Task` (src/commands/run.rs:143-147). -/
structure Task where
  command : String
  directory : Path
deriving DecidableEq, Repr

/-- Model of `OrderedTask` (src/commands/run.rs:149-153). -/
structure OrderedTask where
  task : Task
  order : Nat
deriving DecidableEq, Repr

mutual

/-- Model of `order_tasks` (src/commands/run.rs:165-182, identical at
src/utils/config.rs:36-53): push one `OrderedTask` when the node's task map
contains the requested name, then recurse into the children with the depth
increased by one. The source threads a mutable vector; the returned list is
its final contents in push order. -/
def order_tasks (cs : ConfigStructure) (task_name : String) (index : Nat) :
    List OrderedTask :=
  match cs with
  | .mk config children =>
    (match List.lookup task_name config.tasks with
     | none => []
     | some config_task => [⟨⟨config_task.content, config.dir_path⟩, index⟩])
    ++ order_tasks_list children task_name (index + 1)

/-- The child loop of `order_tasks` (src/commands/run.rs:179-181). -/
def order_tasks_list (children : List ConfigStructure) (task_name : String)
    (index : Nat) : List OrderedTask :=
  match children with
  | [] => []
  | c :: rest => order_tasks c task_name index ++ order_tasks_list rest task_name index

end

/-- Model of `resolve_task_order` (src/commands/run.rs:157-163): the traversal starts
at the root with depth 0; the source's `Result` is always `Ok`. -/
def resolve_task_order (cs : ConfigStructure) (task_name : String) :
    List OrderedTask :=
  order_tasks cs task_name 0

/-- Model of `TaskExit` (src/commands/run.rs:137-141). -/
inductive TaskExit where
  | SUCCESS
  | FAILURE
deriving DecidableEq, Repr

/-- Outcome of one spawned task thread (src/commands/run.rs:108-123): the
external process exits zero (`success`), exits non-zero (`failure`), or the
thread panics because the process could not be started (`expect` in
`execute_task`). The process world is the oracle `exec` below. -/
inductive TaskResult where
  | success
  | failure
  | panicked
deriving DecidableEq, Repr

/-- Whether a thread reported success. -/
def TaskResult.isSuccess : TaskResult → Bool
  | .success => true
  | _ => false

/-- Model of `find_highest_order` (src/commands/run.rs:125-135). -/
def find_highest_order (ordered_tasks : List OrderedTask) : Nat :=
  ordered_tasks.foldl
    (fun highest ot => if ot.order > highest then ot.order else highest) 0

/-- The batch collected by `run_task_order` (src/commands/run.rs:81-87): all
tasks whose order equals the current level, in selection order. -/
def batchAt (ordered_tasks : List OrderedTask) (order : Nat) :
    List OrderedTask :=
  ordered_tasks.filter (fun ot => ot.order == order)

/-- The join loop of `run_task_order` (src/commands/run.rs:95-103): the
thread results are inspected in spawn order; the first non-success yields the
corresponding error. Every thread has already been spawned (and its process
run) before this loop starts. -/
def joinResults : List TaskResult → Except String Unit
  | [] => .ok ()
  | r :: rest =>
    match r with
    | .success => joinResults rest
    | .failure => .error "Command execution failed."
    | .panicked => .error "Thread panicked."

/-- Model of `run_task_order` (src/commands/run.rs:80-106): spawn every task of the
batch, then join. -/
def run_task_order (exec : Task → TaskResult)
    (ordered_tasks : List OrderedTask) (order : Nat) : Except String Unit :=
  joinResults ((batchAt ordered_tasks order).map (fun ot => exec ot.task))

/-- The descending loop `for order in (0..=highest_order).rev()` of
`run_task_structure` (src/commands/run.rs:67-75), processing `order`,
`order - 1`, …, `0`. Besides the `TaskExit`, the model returns the list of
tasks actually spawned, in spawn order, so that temporal claims can be
stated; the source returns only the `TaskExit`. -/
def runOrdersDown (exec : Task → TaskResult)
    (ordered_tasks : List OrderedTask) : Nat → TaskExit × List OrderedTask
  | 0 =>
    match run_task_order exec ordered_tasks 0 with
    | .error _ => (TaskExit.FAILURE, batchAt ordered_tasks 0)
    | .ok _ => (TaskExit.SUCCESS, batchAt ordered_tasks 0)
  | next + 1 =>
    match run_task_order exec ordered_tasks (next + 1) with
    | .error _ => (TaskExit.FAILURE, batchAt ordered_tasks (next + 1))
    | .ok _ =>
      let r := runOrdersDown exec ordered_tasks next
      (r.1, batchAt ordered_tasks (next + 1) ++ r.2)

/-- Model of `run_task_structure` (src/commands/run.rs:64-78): iterate the levels from
the highest order down to 0; a failing level prints the error and returns
`FAILURE` immediately. -/
def run_task_structure (exec : Task → TaskResult)
    (ordered_tasks : List OrderedTask) : TaskExit × List OrderedTask :=
  runOrdersDown exec ordered_tasks (find_highest_order ordered_tasks)

/-- The tail of `run` (src/commands/run.rs:56-61): whether the tasks
succeeded or failed, only a summary is printed and `Ok(())` is returned. -/
def runExit (task_exit : TaskExit) : Except String Unit :=
  match task_exit with
  | .SUCCESS => .ok ()
  | .FAILURE => .ok ()

/-- The result dispatch of `main` (src/main.rs:36-39): on `Ok` the process
exits 0 explicitly; on `Err` the message is printed to stderr and `main`
falls through, so the process also exits 0. Returns the exit code and the
stderr lines. -/
def mainDispatch (result : Except String Unit) : Nat × List String :=
  match result with
  | .ok _ => (0, [])
  | .error e => (0, [e])

/-- Model of `find_config_file` (src/utils/config.rs:350-367): try each candidate
filename (`CONFIG_FILENAMES = ["rask.yaml"]`) inside the directory; `fexists`
is the filesystem-existence oracle. -/
def findConfigLoop (fexists : Path → Bool) (directory_path : Path) :
    List String → Except String Path
  | [] => .error "Unable to find a config file"
  | filename :: rest =>
    if fexists (directory_path ++ [filename]) then
      .ok (directory_path ++ [filename])
    else findConfigLoop fexists directory_path rest

/-- The `CONFIG_FILENAMES` constant (src/utils/config.rs:350). -/
def CONFIG_FILENAMES : List String := ["rask.yaml"]

/-- Model of `find_config_file` (src/utils/config.rs:352-367). -/
def find_config_file (isDir : Path → Bool) (fexists : Path → Bool)
    (directory_path : Path) : Except String Path :=
  if !isDir directory_path then .error "not a directory"
  else findConfigLoop fexists directory_path CONFIG_FILENAMES

/-- Model of `resolve_config_path` (src/utils/config.rs:336-348): canonicalize the
entry path (the oracle `canon` models `std::fs::canonicalize`, `none` when
the target does not exist); if the canonical path is a directory, look for a
configuration file inside it. -/
def resolve_config_path (canon : Path → Option Path) (isDir : Path → Bool)
    (fexists : Path → Bool) (path : Path) : Except String Path :=
  match canon path with
  | none => .error "Target does not exists"
  | some full_path =>
    if isDir full_path then find_config_file isDir fexists full_path
    else .ok full_path

/-! ### Properties of the execution engine -/

/-- Whether the batch at a given order level contains a task whose thread
does not report success (the condition under which `run_task_order`
returns an `Err`). -/
def batchFailsB (exec : Task → TaskResult) (ordered_tasks : List OrderedTask)
    (order : Nat) : Bool :=
  ((batchAt ordered_tasks order).map (fun ot => exec ot.task)).any
    (fun r => !r.isSuccess)

/-- The descending list of `n` order levels starting at `hi`:
`[hi, hi - 1, …]`. -/
def descFrom : Nat → Nat → List Nat
  | _, 0 => []
  | hi, n + 1 => hi :: descFrom (hi - 1) n

theorem joinResults_ok_iff (rs : List TaskResult) :
    joinResults rs = .ok () ↔ ∀ r ∈ rs, r.isSuccess = true := by
  induction rs with
  | nil => simp [joinResults]
  | cons r rest ih =>
    cases r <;> simp [joinResults, TaskResult.isSuccess, ih]

theorem run_task_order_ok_iff (exec : Task → TaskResult)
    (ordered_tasks : List OrderedTask) (order : Nat) :
    run_task_order exec ordered_tasks order = .ok () ↔
      batchFailsB exec ordered_tasks order = false := by
  rw [run_task_order, joinResults_ok_iff, batchFailsB]
  simp

theorem descFrom_mem {n hi j : Nat} (h : j ∈ descFrom hi n) :
    hi + 1 - n ≤ j ∧ j ≤ hi := by
  induction n generalizing hi with
  | zero => simp [descFrom] at h
  | succ n ih =>
    rw [descFrom] at h
    rcases List.mem_cons.mp h with rfl | h
    · omega
    · have := ih h
      omega

theorem mem_batchAt {ordered_tasks : List OrderedTask} {order : Nat}
    {ot : OrderedTask} (h : ot ∈ batchAt ordered_tasks order) :
    ot ∈ ordered_tasks ∧ ot.order = order := by
  rw [batchAt, List.mem_filter] at h
  exact ⟨h.1, by simpa using h.2⟩

theorem runOrdersDown_fail (exec : Task → TaskResult)
    (ordered_tasks : List OrderedTask) (K : Nat)
    (hfail : batchFailsB exec ordered_tasks K = true) :
    ∀ k, K ≤ k →
      (∀ j, K < j → j ≤ k → batchFailsB exec ordered_tasks j = false) →
      runOrdersDown exec ordered_tasks k
        = (TaskExit.FAILURE, (descFrom k (k - K + 1)).flatMap (batchAt ordered_tasks)) := by
  intro k
  induction k with
  | zero =>
    intro hK _
    have hK0 : K = 0 := Nat.le_zero.mp hK
    subst hK0
    have hne : run_task_order exec ordered_tasks 0 ≠ .ok () := by
      intro h
      rw [run_task_order_ok_iff] at h
      rw [h] at hfail
      exact Bool.false_ne_true hfail
    rw [runOrdersDown]
    match h : run_task_order exec ordered_tasks 0 with
    | .ok u => exact absurd (by cases u; exact h) hne
    | .error e => simp [descFrom]
  | succ k ih =>
    intro hK habove
    by_cases hEq : K = k + 1
    · subst hEq
      have hne : run_task_order exec ordered_tasks (k + 1) ≠ .ok () := by
        intro h
        rw [run_task_order_ok_iff] at h
        rw [h] at hfail
        exact Bool.false_ne_true hfail
      rw [runOrdersDown]
      match h : run_task_order exec ordered_tasks (k + 1) with
      | .ok u => exact absurd (by cases u; exact h) hne
      | .error e =>
        have : k + 1 - (k + 1) + 1 = 1 := by omega
        rw [this]
        simp [descFrom]
    · have hKk : K ≤ k := by omega
      have hok : run_task_order exec ordered_tasks (k + 1) = .ok () := by
        rw [run_task_order_ok_iff]
        exact habove (k + 1) (by omega) (Nat.le_refl _)
      rw [runOrdersDown, hok]
      have hrec := ih hKk (fun j h1 h2 => habove j h1 (Nat.le_succ_of_le h2))
      rw [hrec]
      have hn : k + 1 - K + 1 = (k - K + 1) + 1 := by omega
      rw [hn]
      conv_rhs => rw [descFrom]
      simp [Nat.add_sub_cancel]

theorem runOrdersDown_success (exec : Task → TaskResult)
    (ordered_tasks : List OrderedTask) :
    ∀ k, (∀ j, j ≤ k → batchFailsB exec ordered_tasks j = false) →
      runOrdersDown exec ordered_tasks k
        = (TaskExit.SUCCESS, (descFrom k (k + 1)).flatMap (batchAt ordered_tasks)) := by
  intro k
  induction k with
  | zero =>
    intro hall
    have hok : run_task_order exec ordered_tasks 0 = .ok () := by
      rw [run_task_order_ok_iff]; exact hall 0 (Nat.le_refl _)
    rw [runOrdersDown, hok]
    simp [descFrom]
  | succ k ih =>
    intro hall
    have hok : run_task_order exec ordered_tasks (k + 1) = .ok () := by
      rw [run_task_order_ok_iff]; exact hall (k + 1) (Nat.le_refl _)
    rw [runOrdersDown, hok, ih (fun j hj => hall j (Nat.le_succ_of_le hj))]
    conv_rhs => rw [descFrom]
    simp [Nat.add_sub_cancel]

/-- Claim C1: the execution engine processes order levels in strictly
decreasing order from the maximum order down to 0 (the spawn trace is the
concatenation of the batches along the descending level list), and if the
batch at level `K` fails then the run returns `FAILURE` with the trace
stopping at level `K` — every spawned task has order at least `K`, so no
task at any lower order is ever started. -/
theorem c1_execution_descending_fail_fast :
    (∀ (exec : Task → TaskResult) (ordered_tasks : List OrderedTask),
      (∀ j, j ≤ find_highest_order ordered_tasks →
          batchFailsB exec ordered_tasks j = false) →
      run_task_structure exec ordered_tasks
        = (TaskExit.SUCCESS,
            (descFrom (find_highest_order ordered_tasks)
              (find_highest_order ordered_tasks + 1)).flatMap
              (batchAt ordered_tasks))) ∧
    (∀ (exec : Task → TaskResult) (ordered_tasks : List OrderedTask) (K : Nat),
      K ≤ find_highest_order ordered_tasks →
      batchFailsB exec ordered_tasks K = true →
      (∀ j, K < j → j ≤ find_highest_order ordered_tasks →
          batchFailsB exec ordered_tasks j = false) →
      run_task_structure exec ordered_tasks
          = (TaskExit.FAILURE,
              (descFrom (find_highest_order ordered_tasks)
                (find_highest_order ordered_tasks - K + 1)).flatMap
                (batchAt ordered_tasks)) ∧
        ∀ ot ∈ (run_task_structure exec ordered_tasks).2, K ≤ ot.order) := by
  constructor
  · intro exec ordered_tasks hall
    exact runOrdersDown_success exec ordered_tasks _ hall
  · intro exec ordered_tasks K hK hfail habove
    have h := runOrdersDown_fail exec ordered_tasks K hfail _ hK habove
    refine ⟨h, ?_⟩
    intro ot hot
    rw [run_task_structure, h] at hot
    rcases List.mem_flatMap.mp hot with ⟨j, hj, hotj⟩
    have hjb := descFrom_mem hj
    have horder := (mem_batchAt hotj).2
    omega

/-- Concrete execution used by the C1 witness: the command `boom` fails,
everything else succeeds. -/
def execW : Task → TaskResult := fun t =>
  if t.command = "boom" then .failure else .success

/-- Concrete selected tasks used by the C1 witness: a root task at order 0
and a failing child task at order 1. -/
def otsW : List OrderedTask := [⟨⟨"ok-root", []⟩, 0⟩, ⟨⟨"boom", []⟩, 1⟩]

theorem c1_witness :
    (1 ≤ find_highest_order otsW ∧ batchFailsB execW otsW 1 = true) ∧
    run_task_structure execW otsW
        = (TaskExit.FAILURE,
            (descFrom (find_highest_order otsW)
              (find_highest_order otsW - 1 + 1)).flatMap (batchAt otsW)) ∧
    ∀ ot ∈ (run_task_structure execW otsW).2, 1 ≤ ot.order :=
  have h1 : 1 ≤ find_highest_order otsW := by decide
  have h2 : batchFailsB execW otsW 1 = true := by decide
  have h3 : ∀ j, 1 < j → j ≤ find_highest_order otsW →
      batchFailsB execW otsW j = false := fun j hj1 hj2 =>
    absurd (Nat.lt_of_lt_of_le hj1 hj2) (by decide)
  have happ := c1_execution_descending_fail_fast.2 execW otsW 1 h1 h2 h3
  ⟨⟨h1, h2⟩, happ.1, happ.2⟩

/-! ### Properties of the discovery engine -/

theorem addMatches_inv :
    ∀ (ms : List Path) (fs0 : List Path × List Path) (reads : List Path),
      fs0.1.Nodup → (reads ++ fs0.2).Perm fs0.1 →
      (addMatches fs0 ms).1.Nodup ∧
        (reads ++ (addMatches fs0 ms).2).Perm (addMatches fs0 ms).1 := by
  intro ms
  induction ms with
  | nil => intro fs0 reads h1 h2; exact ⟨h1, h2⟩
  | cons m ms ih =>
    intro fs0 reads h1 h2
    rw [addMatches]
    by_cases hm : m ∈ fs0.1
    · rw [if_pos hm]
      exact ih fs0 reads h1 h2
    · rw [if_neg hm]
      have h1' : (fs0.1 ++ [m]).Nodup := by
        rw [List.nodup_append]
        refine ⟨h1, List.nodup_singleton m, ?_⟩
        intro a ha hb
        rw [List.mem_singleton] at hb
        subst hb
        exact hm ha
      have h2' : (reads ++ (m :: fs0.2)).Perm (fs0.1 ++ [m]) :=
        (List.perm_middle.trans (h2.cons m)).trans
          (List.perm_append_singleton m fs0.1).symm
      exact ih (fs0.1 ++ [m], m :: fs0.2) reads h1' h2'

theorem processDirs_inv (globExpand : Path → Except String (List Path))
    (config_directory : Path) :
    ∀ (dirs : List String) (fs0 : List Path × List Path) (reads : List Path)
      (out : List Path × List Path),
      fs0.1.Nodup → (reads ++ fs0.2).Perm fs0.1 →
      processDirs globExpand config_directory dirs fs0 = .ok out →
      out.1.Nodup ∧ (reads ++ out.2).Perm out.1 := by
  intro dirs
  induction dirs with
  | nil =>
    intro fs0 reads out h1 h2 h
    rw [processDirs] at h
    cases h
    exact ⟨h1, h2⟩
  | cons d ds ih =>
    intro fs0 reads out h1 h2 h
    rw [processDirs] at h
    split at h
    · cases h
    · rename_i ms hge
      have hadd := addMatches_inv ms fs0 reads h1 h2
      exact ih (addMatches fs0 ms) reads out hadd.1 hadd.2 h

theorem discoverLoop_inv (fs : Path → Option String)
    (parseYaml : String → Option ConfigFile)
    (globExpand : Path → Except String (List Path)) :
    ∀ (fuel : Nat) (found stack reads : List Path)
      (out : List Path × List Path),
      found.Nodup → (reads ++ stack).Perm found →
      discoverLoop fs parseYaml globExpand fuel found stack reads = .ok out →
      out.1.Nodup ∧ out.2.Perm out.1 := by
  intro fuel
  induction fuel with
  | zero =>
    intro found stack reads out _ _ h
    rw [discoverLoop] at h
    cases h
  | succ fuel ih =>
    intro found stack reads out h1 h2 h
    cases stack with
    | nil =>
      rw [discoverLoop] at h
      cases h
      rw [List.append_nil] at h2
      exact ⟨h1, h2⟩
    | cons p rest =>
      rw [discoverLoop] at h
      split at h
      · cases h
      · cases h
      · rename_i config_file hr
        split at h
        · cases h
        · rename_i fs2 hp
          have hpre : ((reads ++ [p]) ++ rest).Perm found := by
            rw [List.append_assoc]
            exact h2
          have hinv := processDirs_inv globExpand p.dropLast
            config_file.directories (found, rest) (reads ++ [p]) fs2 h1 hpre hp
          exact ih fs2.1 fs2.2 (reads ++ [p]) out hinv.1 hinv.2 h

/-- Claim C2: whenever discovery terminates successfully, the returned
collection contains each discovered path exactly once (it is duplicate-free),
and the configuration reads performed by the loop are exactly one read per
returned path (the read list is a permutation of the found list and is itself
duplicate-free) — regardless of how many ancestors' patterns match a path,
i.e. for every glob-expansion oracle. -/
theorem c2_discovery_visits_each_path_once
    (fs : Path → Option String) (parseYaml : String → Option ConfigFile)
    (globExpand : Path → Except String (List Path)) (fuel : Nat)
    (entry : Path) (found reads : List Path)
    (h : discover_config_paths fs parseYaml globExpand fuel entry
      = .ok (found, reads)) :
    found.Nodup ∧ reads.Perm found ∧ reads.Nodup := by
  have hinv := discoverLoop_inv fs parseYaml globExpand fuel [entry] [entry] []
    (found, reads) (List.nodup_singleton entry) (by simp) h
  exact ⟨hinv.1, hinv.2, hinv.2.symm.nodup hinv.1⟩

/-- Concrete paths shared by the witnesses: an entry configuration and one
configuration below it. -/
def pRoot : Path := ["repo", "rask.yaml"]

/-- The child configuration path of the concrete examples. -/
def pPkg : Path := ["repo", "pkg", "rask.yaml"]

/-- Concrete filesystem for the C2 witness. -/
def fsW : Path → Option String := fun p =>
  if p = pRoot then some "root-config"
  else if p = pPkg then some "pkg-config" else none

/-- Concrete YAML parser oracle for the C2 witness: the root configuration
declares two directory patterns, both of which match the same child. -/
def pyW : String → Option ConfigFile := fun s =>
  if s = "root-config" then
    some ⟨"root", TaskEngine.NONE, ["pkg", "*"], [], [], []⟩
  else if s = "pkg-config" then
    some ⟨"pkg", TaskEngine.NONE, [], [], [], []⟩
  else none

/-- Concrete glob expansion for the C2 witness: both of the root's patterns
expand to the same child path. -/
def geW : Path → Except String (List Path) := fun pat =>
  if pat = ["repo", "pkg", "rask.yaml"] then .ok [pPkg]
  else if pat = ["repo", "*", "rask.yaml"] then .ok [pPkg]
  else .ok []

theorem c2_witness :
    discover_config_paths fsW pyW geW 4 pRoot = .ok ([pRoot, pPkg], [pRoot, pPkg]) ∧
    ([pRoot, pPkg] : List Path).Nodup ∧
    ([pRoot, pPkg] : List Path).Perm [pRoot, pPkg] ∧
    ([pRoot, pPkg] : List Path).Nodup :=
  have h : discover_config_paths fsW pyW geW 4 pRoot
      = .ok ([pRoot, pPkg], [pRoot, pPkg]) := by rfl
  have hc := c2_discovery_visits_each_path_once fsW pyW geW 4 pRoot
    [pRoot, pPkg] [pRoot, pPkg] h
  ⟨h, hc.1, hc.2.1, hc.2.2⟩

/-! ### Canonicalization (claim C6) -/

/-- A second textual path for the entry configuration file, reached through a
symlinked directory: glob expansion reports it under the `link` component. -/
def pAlias : Path := ["repo", "link", "rask.yaml"]

/-- Concrete canonicalization oracle: `repo/link/rask.yaml` is a symlink
alias of `repo/rask.yaml`; everything else is already canonical. -/
def canonC6 : Path → Path := fun p => if p = pAlias then pRoot else p

/-- Concrete filesystem for the C6 scenario: both textual paths denote the
same file, hence the same content. -/
def fsC6 : Path → Option String := fun p =>
  if p = pRoot then some "entry-config"
  else if p = pAlias then some "entry-config" else none

/-- Concrete YAML parser for the C6 scenario. -/
def pyC6 : String → Option ConfigFile := fun s =>
  if s = "entry-config" then
    some ⟨"root", TaskEngine.NONE, ["link"], [], [], []⟩
  else none

/-- Concrete glob expansion for the C6 scenario: the entry's pattern matches
the aliased textual path. -/
def geC6 : Path → Except String (List Path) := fun pat =>
  if pat = ["repo", "link", "rask.yaml"] then .ok [pAlias] else .ok []

/-- Claim C6 counterexample: discovery inserts glob matches as returned,
without canonicalizing them, so the discovered set can contain a
non-canonical path and two textually different entries that denote the same
configuration file. -/
theorem c6_counterexample :
    discover_config_paths fsC6 pyC6 geC6 4 pRoot
        = .ok ([pRoot, pAlias], [pRoot, pAlias]) ∧
    canonC6 pAlias ≠ pAlias ∧
    canonC6 pAlias = canonC6 pRoot ∧
    pAlias ≠ pRoot :=
  ⟨by rfl, by decide, by decide, by decide⟩

/-- Claim C6 (amended): discovery deduplicates textually — the discovered
set never contains the same textual path twice — and canonicalization
happens only when the entry path is resolved by `resolve_config_path`
(whose successful result is the canonicalized input, possibly with the
default configuration filename appended); glob matches themselves are never
canonicalized, as the counterexample shows. -/
theorem c6_amended_textual_dedup_only :
    (∀ (fs : Path → Option String) (parseYaml : String → Option ConfigFile)
      (globExpand : Path → Except String (List Path)) (fuel : Nat)
      (entry : Path) (found reads : List Path),
      discover_config_paths fs parseYaml globExpand fuel entry
        = .ok (found, reads) → found.Nodup) ∧
    (∀ (canon : Path → Option Path) (isDir fexists : Path → Bool)
      (path full : Path),
      resolve_config_path canon isDir fexists path = .ok full →
      canon path = some full ∨
        ∃ d, canon path = some d ∧ full = d ++ ["rask.yaml"]) := by
  constructor
  · intro fs parseYaml globExpand fuel entry found reads h
    exact (discoverLoop_inv fs parseYaml globExpand fuel [entry] [entry] []
      (found, reads) (List.nodup_singleton entry) (by simp) h).1
  · intro canon isDir fexists path full h
    rw [resolve_config_path] at h
    split at h
    · cases h
    · rename_i full_path hc
      split at h
      · rw [find_config_file] at h
        rename_i hd
        rw [hd] at h
        rw [CONFIG_FILENAMES] at h
        simp only [Bool.not_true, Bool.false_eq_true, if_false] at h
        rw [findConfigLoop] at h
        split at h
        · cases h
          exact Or.inr ⟨full_path, hc, rfl⟩
        · rw [findConfigLoop] at h
          cases h
      · cases h
        exact Or.inl hc

/-- Directory predicate for the C6 amended witness. -/
def isDirC6 : Path → Bool := fun p => p == ["repo"]

/-- Existence predicate for the C6 amended witness. -/
def fexistsC6 : Path → Bool := fun p => p == pRoot

/-- Canonicalization oracle for the C6 amended witness. -/
def canonOkC6 : Path → Option Path := fun p =>
  if p = ["repo"] then some ["repo"] else none

theorem c6_witness :
    ([pRoot, pAlias] : List Path).Nodup ∧
    (canonOkC6 ["repo"] = some pRoot ∨
      ∃ d, canonOkC6 ["repo"] = some d ∧ pRoot = d ++ ["rask.yaml"]) :=
  have h1 : discover_config_paths fsC6 pyC6 geC6 4 pRoot
      = .ok ([pRoot, pAlias], [pRoot, pAlias]) := by rfl
  have h2 : resolve_config_path canonOkC6 isDirC6 fexistsC6 ["repo"] = .ok pRoot := by rfl
  ⟨c6_amended_textual_dedup_only.1 fsC6 pyC6 geC6 4 pRoot [pRoot, pAlias]
      [pRoot, pAlias] h1,
    c6_amended_textual_dedup_only.2 canonOkC6 isDirC6 fexistsC6 ["repo"] pRoot h2⟩

/-! ### Loading errors (claim C5) -/

/-- Concrete filesystem for the C5 scenario: the entry configuration file is
readable but its content is not valid YAML. -/
def fsC5 : Path → Option String := fun p =>
  if p = pRoot then some "not: [valid yaml" else none

/-- Concrete YAML parser for the C5 scenario: the content does not parse. -/
def pyC5 : String → Option ConfigFile := fun _ => none

/-- Claim C5: on a readable configuration file whose content is malformed,
`read_config_file` aborts through the `expect` panic instead of returning an
error result; only an unreadable file produces an ordinary error. -/
theorem c5_malformed_config_panics :
    read_config_file fsC5 pyC5 pRoot = .panicked "Failed to parse YAML" ∧
    (∀ e, read_config_file fsC5 pyC5 pRoot ≠ .err e) ∧
    read_config_file fsC5 pyC5 pPkg = .err "Failed to read file" :=
  ⟨by rfl,
    fun e h => by
      rw [show read_config_file fsC5 pyC5 pRoot
          = .panicked "Failed to parse YAML" from rfl] at h
      exact ROut.noConfusion h,
    by rfl⟩

/-! ### The glob-pattern suffix rule (claim C7) -/

/-- Claim C7: a declared pattern whose final component is `sub/other.yaml`
still gets `rask.yaml` appended, because `Path::ends_with(".yaml")` compares
whole components (here `other.yaml` is compared against the component
`.yaml`), not string suffixes. -/
theorem c7_yaml_pattern_gets_default_appended :
    get_config_glob_pattern ["repo"] "sub/other.yaml"
        = ["repo", "sub", "other.yaml", "rask.yaml"] ∧
    get_config_glob_pattern ["repo"] "sub/other.yaml"
        ≠ path_push ["repo"] "sub/other.yaml" ∧
    path_push ["repo"] "sub/other.yaml" = ["repo", "sub", "other.yaml"] :=
  ⟨by decide, by decide, by decide⟩

/-! ### Exit codes (claim C9) -/

/-- A single failing selected task for the C9 scenario. -/
def otsC9 : List OrderedTask := [⟨⟨"boom", []⟩, 0⟩]

/-- Claim C9: a failing task makes `run_task_structure` report `FAILURE`,
but `run` still returns `Ok(())` and `main` exits with code 0; an error
result makes `main` print the message yet also exit with code 0. -/
theorem c9_failure_exits_zero :
    (run_task_structure execW otsC9).1 = TaskExit.FAILURE ∧
    runExit (run_task_structure execW otsC9).1 = .ok () ∧
    mainDispatch (runExit (run_task_structure execW otsC9).1) = (0, []) ∧
    (∀ e, mainDispatch (.error e) = (0, [e])) :=
  ⟨by rfl, by rfl, by rfl, fun e => rfl⟩

/-! ### Task-engine resolution (claims C3 and C4) -/

/-- Looking a key up in a mapped association list whose values depend only on
the key: the first entry with that key yields the mapped value. -/
theorem lookup_map_by_key {β : Type} (f : String → ConfigTask) :
    ∀ (l : List (String × β)) (k : String) (v : β), (k, v) ∈ l →
      List.lookup k (l.map (fun kv => (kv.1, f kv.1))) = some (f k) := by
  intro l
  induction l with
  | nil => intro k v hm; cases hm
  | cons kv0 t ih =>
    intro k v hm
    rw [List.map_cons, List.lookup]
    by_cases hk : k = kv0.1
    · rw [show (k == kv0.1) = true from by simpa using hk]
      rw [hk]
    · rw [show (k == kv0.1) = false from by simpa using hk]
      rcases List.mem_cons.mp hm with heq | ht
      · exact absurd (congrArg Prod.fst heq) hk
      · exact ih k v ht

/-- Concrete node filesystem for the C3 scenario: an `app` directory whose
manifest declares `scripts: (test -> jest)`. -/
def fsC3 : Path → Option String := fun p =>
  if p = ["app", "package.json"] then some "pkg-json" else none

/-- Concrete JSON parser for the C3 node scenario. -/
def pjC3 : String → Option PackageJsonFile := fun s =>
  if s = "pkg-json" then some ⟨[("test", "jest")]⟩ else none

/-- Claim C3 counterexample: with the npm engine and a manifest declaring a
`test` script, the resolved invocation is the Debug-quoted
`"npm" run "test"`, not the claimed `npm run test`. -/
theorem c3_counterexample :
    parse_node_tasks fsC3 pjC3 ["app"] "npm"
        = .ok [("test", ⟨TaskType.SHELL, "\"npm\" run \"test\""⟩)] ∧
    "\"npm\" run \"test\"" ≠ "npm run test" :=
  ⟨by rfl, by decide⟩

/-- Claim C3 (amended): for every manifest script named `k`, the npm/yarn
engines resolve a task whose invocation is
`format!("{:?} run {:?}", prefix, k)`, i.e. the package-manager name and the
script name each wrapped in Debug quotes; the composer engine resolves
`format!("composer run {:?}", k)`, quoting only the script name. -/
theorem c3_amended_invocations_quoted :
    (∀ (fs : Path → Option String)
      (parseJson : String → Option PackageJsonFile) (dir_path : Path)
      (pmCmd content : String) (pj : PackageJsonFile) (k v : String),
      fs (dir_path ++ ["package.json"]) = some content →
      parseJson content = some pj →
      (k, v) ∈ pj.scripts →
      ∃ ts, parse_node_tasks fs parseJson dir_path pmCmd = .ok ts ∧
        List.lookup k ts
          = some ⟨TaskType.SHELL, rustDebug pmCmd ++ " run " ++ rustDebug k⟩) ∧
    (∀ (fs : Path → Option String)
      (parseJson : String → Option ComposerJsonFile) (dir_path : Path)
      (content : String) (pj : ComposerJsonFile) (k : String)
      (v : ComposerJsonScriptValue),
      fs (dir_path ++ ["composer.json"]) = some content →
      parseJson content = some pj →
      (k, v) ∈ pj.scripts →
      ∃ ts, parse_composer_tasks fs parseJson dir_path = .ok ts ∧
        List.lookup k ts
          = some ⟨TaskType.SHELL, "composer run " ++ rustDebug k⟩) := by
  constructor
  · intro fs parseJson dir_path pmCmd content pj k v h1 h2 hm
    refine ⟨pj.scripts.map
        (fun kv => (kv.1, ⟨TaskType.SHELL,
          rustDebug pmCmd ++ " run " ++ rustDebug kv.1⟩)), ?_, ?_⟩
    · simp only [parse_node_tasks, h1, h2]
    · exact lookup_map_by_key
        (fun key => ⟨TaskType.SHELL, rustDebug pmCmd ++ " run " ++ rustDebug key⟩)
        pj.scripts k v hm
  · intro fs parseJson dir_path content pj k v h1 h2 hm
    refine ⟨pj.scripts.map
        (fun kv => (kv.1, ⟨TaskType.SHELL, "composer run " ++ rustDebug kv.1⟩)),
        ?_, ?_⟩
    · simp only [parse_composer_tasks, h1, h2]
    · exact lookup_map_by_key
        (fun key => ⟨TaskType.SHELL, "composer run " ++ rustDebug key⟩)
        pj.scripts k v hm

/-- Concrete composer filesystem for the C3 witness. -/
def fsC3c : Path → Option String := fun p =>
  if p = ["app", "composer.json"] then some "composer-json" else none

/-- Concrete JSON parser for the C3 composer witness. -/
def pcC3 : String → Option ComposerJsonFile := fun s =>
  if s = "composer-json" then
    some ⟨[("lint", ComposerJsonScriptValue.Single "phpcs")]⟩
  else none

theorem c3_witness :
    (∃ ts, parse_node_tasks fsC3 pjC3 ["app"] "npm" = .ok ts ∧
      List.lookup "test" ts
        = some ⟨TaskType.SHELL, rustDebug "npm" ++ " run " ++ rustDebug "test"⟩) ∧
    (∃ ts, parse_composer_tasks fsC3c pcC3 ["app"] = .ok ts ∧
      List.lookup "lint" ts
        = some ⟨TaskType.SHELL, "composer run " ++ rustDebug "lint"⟩) :=
  ⟨c3_amended_invocations_quoted.1 fsC3 pjC3 ["app"] "npm" "pkg-json"
      ⟨[("test", "jest")]⟩ "test" "jest" (by rfl) (by rfl) (by decide),
    c3_amended_invocations_quoted.2 fsC3c pcC3 ["app"] "composer-json"
      ⟨[("lint", ComposerJsonScriptValue.Single "phpcs")]⟩ "lint"
      (ComposerJsonScriptValue.Single "phpcs") (by rfl) (by rfl) (by decide)⟩

/-- Concrete configuration file for the C4 scenario: the `task_engine` field
was omitted, so it carries the serde default; it has one explicit task, and a
node manifest is present in its directory. -/
def cfC4 : ConfigFile :=
  ⟨"app", taskEngineDefault, [], [("hello", "echo hi")], ["app", "rask.yaml"], ["app"]⟩

/-- Concrete filesystem for the C4 scenario: `app/package.json` exists. -/
def fsC4 : Path → Option String := fun p =>
  if p = ["app", "package.json"] then some "pkg-json" else none

/-- Concrete node-manifest parser for the C4 scenario: the manifest declares
a `dev` script. -/
def pnC4 : String → Option PackageJsonFile := fun s =>
  if s = "pkg-json" then some ⟨[("dev", "vite")]⟩ else none

/-- Concrete composer parser for the C4 scenario (no composer manifest). -/
def pcC4 : String → Option ComposerJsonFile := fun _ => none

/-- Claim C4 counterexample: a configuration that omits `task_engine` (the
default engine) resolves only its explicit tasks, even though a node manifest
with a `dev` script is present in its directory — nothing is merged in. -/
theorem c4_counterexample :
    fsC4 (cfC4.dir_path ++ ["package.json"]) = some "pkg-json" ∧
    pnC4 "pkg-json" = some ⟨[("dev", "vite")]⟩ ∧
    parse_config_file fsC4 pnC4 pcC4 cfC4
        = .ok ⟨"app", taskEngineDefault,
            [("hello", ⟨TaskType.SHELL, "echo hi"⟩)],
            ["app", "rask.yaml"], ["app"], []⟩ ∧
    (∀ cfg, parse_config_file fsC4 pnC4 pcC4 cfC4 = .ok cfg →
      List.lookup "dev" cfg.tasks = none) := by
  refine ⟨by rfl, by rfl, by rfl, ?_⟩
  intro cfg h
  rw [show parse_config_file fsC4 pnC4 pcC4 cfC4
      = .ok ⟨"app", taskEngineDefault,
          [("hello", ⟨TaskType.SHELL, "echo hi"⟩)],
          ["app", "rask.yaml"], ["app"], []⟩ from rfl] at h
  cases h
  decide

/-- Claim C4 (amended): a configuration file that omits `task_engine` gets
the default engine `NONE`, whose resolution is exactly the explicit shell
tasks; it consults no manifest at all — the result does not depend on the
filesystem or the manifest parsers, so no auto-discovered tasks are merged
(the code has no `auto` engine; its engines are
composer/npm/yarn/pnpm/none). -/
theorem c4_amended_default_engine_explicit_only
    (fs fs2 : Path → Option String)
    (pn pn2 : String → Option PackageJsonFile)
    (pc pc2 : String → Option ComposerJsonFile) (cf : ConfigFile)
    (h : cf.task_engine = taskEngineDefault) :
    parse_config_file fs pn pc cf
        = .ok { name := cf.name, task_engine := cf.task_engine,
                tasks := parse_config_tasks cf.tasks,
                file_path := cf.file_path, dir_path := cf.dir_path,
                directories := cf.directories } ∧
    parse_config_file fs pn pc cf = parse_config_file fs2 pn2 pc2 cf := by
  rw [taskEngineDefault] at h
  constructor
  · rw [parse_config_file, h]
  · rw [parse_config_file, parse_config_file, h]

theorem c4_witness :
    cfC4.task_engine = taskEngineDefault ∧
    parse_config_file fsC4 pnC4 pcC4 cfC4
        = .ok { name := cfC4.name, task_engine := cfC4.task_engine,
                tasks := parse_config_tasks cfC4.tasks,
                file_path := cfC4.file_path, dir_path := cfC4.dir_path,
                directories := cfC4.directories } ∧
    parse_config_file fsC4 pnC4 pcC4 cfC4
        = parse_config_file (fun _ => none) (fun _ => none) (fun _ => none) cfC4 :=
  have h : cfC4.task_engine = taskEngineDefault := rfl
  have happ := c4_amended_default_engine_explicit_only fsC4 (fun _ => none)
    pnC4 (fun _ => none) pcC4 (fun _ => none) cfC4 h
  ⟨h, happ.1, happ.2⟩

/-! ### Structure builder (claims C8 and C10) -/

/-- A concrete stand-in for `globset` matching, used to instantiate the
`isMatch` oracle: component-wise comparison where a pattern component `*`
matches any single component. -/
def isMatchGlob : Path → Path → Bool := fun pat p =>
  pat.length == p.length &&
    (List.zip pat p).all (fun pc => pc.1 == "*" || pc.1 == pc.2)

/-- The names of the root's children of a built structure (used to separate
two trees). -/
def rootChildNames : ROut ConfigStructure → List String
  | .ok t => t.children.map (fun c => c.config.name)
  | .err _ => []
  | .panicked _ => []

/-- Child configuration path `repo/a/rask.yaml`. -/
def pA : Path := ["repo", "a", "rask.yaml"]

/-- Child configuration path `repo/b/rask.yaml`. -/
def pB : Path := ["repo", "b", "rask.yaml"]

/-- Root configuration whose single pattern `*` matches both children. -/
def cfgStar : Config := ⟨"root", TaskEngine.NONE, [], pRoot, ["repo"], ["*"]⟩

/-- Configuration of child `a`. -/
def cfgA : Config := ⟨"child-a", TaskEngine.NONE, [], pA, ["repo", "a"], []⟩

/-- Configuration of child `b`. -/
def cfgB : Config := ⟨"child-b", TaskEngine.NONE, [], pB, ["repo", "b"], []⟩

/-- The path map with one hash-map iteration order… -/
def mapAB : List (Path × Config) := [(pRoot, cfgStar), (pA, cfgA), (pB, cfgB)]

/-- The same map contents in another iteration order. -/
def mapBA : List (Path × Config) := [(pRoot, cfgStar), (pB, cfgB), (pA, cfgA)]

/-- Claim C8 counterexample: the same path→config map presented in two
iteration orders (the lists are permutations of each other with distinct
keys, i.e. equal as hash maps) makes the structure builder produce two
different trees — the match order within a single pattern follows
`HashMap::keys()` iteration order, which is not fixed across runs. -/
theorem c8_counterexample :
    mapAB.Perm mapBA ∧ (mapAB.map Prod.fst).Nodup ∧
    construct_config_structure isMatchGlob 3 pRoot mapAB
      ≠ construct_config_structure isMatchGlob 3 pRoot mapBA := by
  refine ⟨by decide, by decide, ?_⟩
  intro h
  have h1 : rootChildNames (construct_config_structure isMatchGlob 3 pRoot mapAB)
      = ["child-a", "child-b"] := by rfl
  have h2 : rootChildNames (construct_config_structure isMatchGlob 3 pRoot mapBA)
      = ["child-b", "child-a"] := by rfl
  rw [h] at h1
  rw [h2] at h1
  exact absurd h1 (by decide)

/-- Pointwise permutations lift through `flatMap`. -/
theorem flatMap_perm_of_perm (l : List String) (f g : String → List Path)
    (h : ∀ d, (f d).Perm (g d)) : (l.flatMap f).Perm (l.flatMap g) := by
  induction l with
  | nil => simp
  | cons d t ih =>
    rw [List.flatMap_cons, List.flatMap_cons]
    exact (h d).append ih

/-- Claim C8 (amended): the structure builder is deterministic only given a
fixed hash-map iteration order of the path map. The children of a node are
grouped by its `directories` patterns in declaration order, and within one
pattern the matches follow the key iteration order; permuting the iteration
order permutes the matches of each pattern (and hence the node's child list),
so the tree is stable as a multiset of children but not as a sequence. -/
theorem c8_amended_children_follow_map_iteration_order
    (isMatch : Path → Path → Bool) (config_directory : Path) (config : Config)
    (keys keys2 : List Path) (h : keys.Perm keys2) :
    (∀ d, (keys.filter
        (fun p => isMatch (get_config_glob_pattern config_directory d) p)).Perm
      (keys2.filter
        (fun p => isMatch (get_config_glob_pattern config_directory d) p))) ∧
    (child_paths isMatch config_directory config keys).Perm
      (child_paths isMatch config_directory config keys2) := by
  constructor
  · intro d
    exact h.filter _
  · rw [child_paths, child_paths]
    exact flatMap_perm_of_perm config.directories _ _ (fun d => h.filter _)

theorem c8_witness :
    ([pRoot, pA, pB] : List Path).Perm [pRoot, pB, pA] ∧
    (child_paths isMatchGlob ["repo"] cfgStar [pRoot, pA, pB]).Perm
      (child_paths isMatchGlob ["repo"] cfgStar [pRoot, pB, pA]) :=
  have h : ([pRoot, pA, pB] : List Path).Perm [pRoot, pB, pA] := by decide
  ⟨h, (c8_amended_children_follow_map_iteration_order isMatchGlob ["repo"]
      cfgStar [pRoot, pA, pB] [pRoot, pB, pA] h).2⟩

/-- Occurrence count in a filtered list, conditional form. -/
theorem count_filter_ite (a : Path) (q : Path → Bool) (l : List Path) :
    List.count a (l.filter q) = if q a = true then List.count a l else 0 := by
  by_cases h : q a = true
  · rw [if_pos h, List.count_filter h]
  · rw [if_neg h, List.count_eq_zero]
    intro hm
    exact h (List.mem_filter.mp hm).2

/-- Occurrence count of a path in the concatenation of per-pattern filters:
one occurrence per matching pattern, scaled by the path's multiplicity in the
key list. -/
theorem count_flatMap_filter (q : String → Path → Bool) (keys : List Path)
    (p : Path) (h : List.count p keys = 1) :
    ∀ dirs : List String,
      List.count p (dirs.flatMap (fun d => keys.filter (q d)))
        = (dirs.filter (fun d => q d p)).length := by
  intro dirs
  induction dirs with
  | nil => simp
  | cons d t ih =>
    rw [List.flatMap_cons, List.count_append, ih, count_filter_ite]
    by_cases hd : q d p = true
    · have hf : List.filter (fun d => q d p) (d :: t)
          = d :: List.filter (fun d => q d p) t := by simp [hd]
      rw [if_pos hd, h, hf, List.length_cons]
      omega
    · have hf : List.filter (fun d => q d p) (d :: t)
          = List.filter (fun d => q d p) t := by simp [hd]
      rw [if_neg hd, hf]
      omega

/-- Root configuration for the C10 scenario: two directory patterns, `pkg`
and `*`, both matching the same child path. -/
def cfgDup : Config :=
  ⟨"root", TaskEngine.NONE, [("build", ⟨TaskType.SHELL, "echo root"⟩)],
    pRoot, ["repo"], ["pkg", "*"]⟩

/-- Child configuration for the C10 scenario, holding the matching task. -/
def cfgPkg : Config :=
  ⟨"pkg", TaskEngine.NONE, [("build", ⟨TaskType.SHELL, "echo child"⟩)],
    pPkg, ["repo", "pkg"], []⟩

/-- Path map of the C10 scenario. -/
def mapDup : List (Path × Config) := [(pRoot, cfgDup), (pPkg, cfgPkg)]

/-- The tree the builder produces for the C10 scenario: the child subtree
occurs twice, once per matching pattern. -/
def treeDup : ConfigStructure :=
  .mk cfgDup [.mk cfgPkg [], .mk cfgPkg []]

/-- The child's selected task in the C10 scenario. -/
def otChild : OrderedTask := ⟨⟨"echo child", ["repo", "pkg"]⟩, 1⟩

/-- Execution oracle under which every process succeeds. -/
def execAll : Task → TaskResult := fun _ => .success

/-- Claim C10: a discovered path that matches several patterns of one node is
appended to that node's children once per matching pattern (in general: its
occurrence count among the child paths equals the number of matching
patterns when it occurs once among the keys), and concretely a child matching
two of the root's patterns appears twice in the built tree, its task is
selected twice, and the execution engine spawns it twice. -/
theorem c10_duplicate_pattern_duplicate_execution :
    (∀ (isMatch : Path → Path → Bool) (config_directory : Path)
      (config : Config) (keys : List Path) (p : Path),
      List.count p keys = 1 →
      List.count p (child_paths isMatch config_directory config keys)
        = (config.directories.filter
            (fun d => isMatch (get_config_glob_pattern config_directory d) p)).length) ∧
    construct_config_structure isMatchGlob 3 pRoot mapDup = .ok treeDup ∧
    List.count otChild (resolve_task_order treeDup "build") = 2 ∧
    (run_task_structure execAll (resolve_task_order treeDup "build")).1
        = TaskExit.SUCCESS ∧
    List.count otChild
        (run_task_structure execAll (resolve_task_order treeDup "build")).2 = 2 := by
  refine ⟨?_, by rfl, by rfl, by rfl, by rfl⟩
  intro isMatch config_directory config keys p h
  rw [child_paths]
  exact count_flatMap_filter
    (fun d q => isMatch (get_config_glob_pattern config_directory d) q)
    keys p h config.directories

theorem c10_witness :
    List.count pPkg (mapDup.map Prod.fst) = 1 ∧
    List.count pPkg
        (child_paths isMatchGlob ["repo"] cfgDup (mapDup.map Prod.fst))
      = (cfgDup.directories.filter
          (fun d => isMatchGlob (get_config_glob_pattern ["repo"] d) pPkg)).length :=
  have h : List.count pPkg (mapDup.map Prod.fst) = 1 := by decide
  ⟨h, c10_duplicate_pattern_duplicate_execution.1 isMatchGlob ["repo"] cfgDup
      (mapDup.map Prod.fst) pPkg h⟩

end Rask
